import Mathlib

/-!
Verification of the inertia-loco protocol engine against its specification.

The repository implements the server side of the Inertia.js protocol for the
Loco web framework.  The files `config.rs`, `initializer.rs`, `lib.rs`,
`response.rs` and `tera.rs` are embedded from the source.  The modules
`request.rs`, `partial.rs`, `props.rs` and `page.rs` are declared in `lib.rs`
but their sources are not available; the definitions that stand in for them
are modelled from the specification and carry a doc comment saying so.

JSON values are modelled by an inductive `Json`; property mappings are ordered
association lists `List (String × α)`, matching the spec's "ordered mapping".
Panics (`expect` / `unwrap` in the source) are modelled by `Option`: a `none`
result means the Rust code panics and no value is produced.
-/

set_option autoImplicit false

namespace InertiaLoco

/-- A JSON value as produced by serde_json, restricted to what the protocol
needs (numbers as integers suffice for the claims under study). -/
inductive Json where
  | null
  | bool (b : Bool)
  | num (n : Int)
  | str (s : String)
  | arr (elems : List Json)
  | obj (fields : List (String × Json))

/-- Modelled from the spec: the `PartialDirective` of the data model
(`partial.rs` is not in the sources).  `target_component` is the component the
client currently has mounted; `only` and `except` are optional key lists. -/
structure PartialDirective where
  target_component : String
  only : Option (List String)
  except : Option (List String)
deriving Repr, DecidableEq

/-- First value bound to key `k` in an ordered property mapping. -/
def lookupProp {α : Type} (props : List (String × α)) (k : String) : Option α :=
  (props.find? (fun p => p.1 = k)).map (fun p => p.2)

/-- Modelled from the spec: the Partial Filter (`partial.rs` is not in the
sources).  If the directive is absent or targets a different component the
mapping is returned unchanged; else an `only` list (even empty) restricts the
mapping to its keys in `only` order; else an `except` list removes its keys;
else the mapping is unchanged. -/
def filterProps {α : Type} (full_props : List (String × α))
    (directive : Option PartialDirective) (current_component : String) :
    List (String × α) :=
  match directive with
  | none => full_props
  | some d =>
    if d.target_component ≠ current_component then
      full_props
    else
      match d.only with
      | some onlyKeys =>
          onlyKeys.filterMap (fun k => (lookupProp full_props k).map (fun v => (k, v)))
      | none =>
        match d.except with
        | some exceptKeys => full_props.filter (fun p => ¬ exceptKeys.contains p.1)
        | none => full_props

/-- A request URI split into its path and optional query (http::Uri). -/
structure Uri where
  path : String
  query : Option String
deriving Repr, DecidableEq

/-- Renders the path together with the query when one is present. -/
def Uri.pathAndQuery (u : Uri) : String :=
  match u.query with
  | some q => u.path ++ "?" ++ q
  | none => u.path

/-- Request parts: method, URI and header map (http::request::Parts).  Header
names are case-insensitive, so lookups lowercase the stored names. -/
structure Parts where
  method : String
  uri : Uri
  headers : List (String × String)

/-- Lowercases a string character by character, modelling the
case-insensitive treatment of header names and marker values. -/
def asciiLower (s : String) : String :=
  ⟨s.data.map Char.toLower⟩

/-- First header whose (lowercased) name matches; `name` is given lowercase. -/
def getHeader (headers : List (String × String)) (name : String) : Option String :=
  (headers.find? (fun h => asciiLower h.1 = name)).map (fun h => h.2)

/-- Comma-separated header value: split on commas, trim entries, drop empty
ones. -/
def parseCsv (s : String) : List String :=
  ((s.splitOn ",").map String.trim).filter (fun t => t ≠ "")

/-- Modelled from the spec: the RequestContext produced by the request
classifier (`request.rs` is not in the sources).  `partialDir` stands for the
source's `partial` field. -/
structure Request where
  is_xhr : Bool
  version : Option String
  url : String
  partialDir : Option PartialDirective

/-- Modelled from the spec: the request classifier (`request.rs` is not in the
sources).  It never fails: the marker header must be case-insensitively
"true", the version header is read only on Inertia requests, and a partial
directive is built only when the partial-component header is present. -/
def classify (headers : List (String × String)) (url : String) : Request :=
  let is_xhr := match getHeader headers "x-inertia" with
    | some v => asciiLower v == "true"
    | none => false
  { is_xhr := is_xhr
    version := if is_xhr then getHeader headers "x-inertia-version" else none
    url := url
    partialDir :=
      match getHeader headers "x-inertia-partial-component" with
      | some comp => some
          { target_component := comp
            only := (getHeader headers "x-inertia-partial-data").map parseCsv
            except := (getHeader headers "x-inertia-partial-except").map parseCsv }
      | none => none }

/-- Loco's runtime environment (loco_rs::environment::Environment). -/
inductive Environment where
  | Development
  | Production
  | Test
  | Any (name : String)
deriving Repr, DecidableEq

/-- Embeds `config::Inner` / `InertiaConfig` (config.rs).  The tera engine and
the application layout template are external collaborators; the
`tera.render(application_layout, context)` call, with the serialized page
bound to the `props` context key, is modelled by the abstract function
`renderTemplate` from that serialized page to html or a render error.
`version` embeds `InertiaConfig::version()` (the clone is immaterial). -/
structure InertiaConfig where
  environment : Environment
  version : Option String
  renderTemplate : Json → Except String String

/-- Modelled from the spec: the `Page` object (`page.rs` is not in the
sources): component name, filtered props, url and optional version. -/
structure Page where
  component : String
  props : Json
  url : String
  version : Option String

/-- Modelled from the spec: serde serialization of `Page` into the JSON page
envelope with fields `component`, `props`, `url`, `version` (null when no
version is known). -/
def Page.toJson (p : Page) : Json :=
  .obj [("component", .str p.component),
        ("props", p.props),
        ("url", .str p.url),
        ("version", match p.version with | some v => .str v | none => .null)]

/-- Field of a JSON object (first binding), `none` on non-objects. -/
def Json.field (j : Json) (k : String) : Option Json :=
  match j with
  | .obj fields => lookupProp fields k
  | _ => none

/-- Modelled from the spec: a props provider (`props.rs` is not in the
sources): a stable ordered set of keys, each with a thunk producing a
wire-serializable value or failing with a serialization error. -/
structure PropsProvider where
  entries : List (String × Except String Json)

/-- Modelled from the spec: `Props::serialize` under an optional partial
directive: the partial filter resolves the included keys against the
component being rendered, only the included thunks are evaluated, and any
evaluation failure aborts the whole serialization (never a partial result). -/
def PropsProvider.serialize (p : PropsProvider)
    (directive : Option PartialDirective) (current_component : String) :
    Except String Json :=
  (List.mapM (fun (e : String × Except String Json) => e.2.map (fun v => (e.1, v)))
      (filterProps p.entries directive current_component)).map Json.obj

/-- Embeds the `Inertia` extractor state (lib.rs): the classified request and
the configuration extension. -/
structure Inertia where
  request : Request
  config : InertiaConfig

/-- An axum rejection: response status code and response headers. -/
abbrev Rejection := Nat × List (String × String)

/-- Embeds `Inertia::from_request_parts` (lib.rs).  `ext` is the
`Extension<InertiaConfig>` found in the request extensions (`none` when the
layer is missing, rejected with a 500 and empty headers).  A 409 Conflict
with the `X-Inertia-Location` header set to the URI path is returned when the
method is GET, the request is an Inertia request, a version is configured and
the request's version differs from it.  A returned `.error` is an axum
rejection: the handler body never executes. -/
def fromRequestParts (ext : Option InertiaConfig) (parts : Parts) :
    Except Rejection Inertia :=
  match ext with
  | none => .error (500, [])
  | some config =>
    let request := classify parts.headers parts.uri.pathAndQuery
    if parts.method = "GET" ∧ request.is_xhr = true
        ∧ config.version.isSome = true ∧ request.version ≠ config.version then
      .error (409, [("X-Inertia-Location", parts.uri.path)])
    else
      .ok { request := request, config := config }

/-- Embeds `response::Response` (response.rs): the transient value wrapping
the page, the request context and the configuration. -/
structure Response where
  request : Request
  page : Page
  config : InertiaConfig

/-- Embeds `Inertia::render` (lib.rs): builds the `Page` from the component,
the serialized (partial-filtered) props, the request url and the configured
version.  The source unwraps the props serialization with
`.expect("serialization failure")`; that panic is modelled by `none`. -/
def Inertia.render (i : Inertia) (component : String) (props : PropsProvider) :
    Option Response :=
  match props.serialize i.request.partialDir component with
  | .error _ => none
  | .ok value =>
      some { request := i.request
             page := { component := component, props := value,
                       url := i.request.url, version := i.config.version }
             config := i.config }

/-- Body of a wire response: a full HTML document or a JSON value. -/
inductive WireBody where
  | html (document : String)
  | json (value : Json)

/-- A wire response: status code, headers and body. -/
structure WireResponse where
  status : Nat
  headers : List (String × String)
  body : WireBody

/-- Embeds `impl IntoResponse for Response` (response.rs).  The
`X-Inertia-Version` header is inserted first when a version is known; an
Inertia (xhr) request additionally gets `X-Inertia: true` and the JSON page
body; any other request gets the application layout rendered over the
serialized page as a full HTML document.  The source unwraps the layout
result; a render failure is the modelled panic `none`. -/
def Response.intoResponse (r : Response) : Option WireResponse :=
  let headers := match r.config.version with
    | some v => [("X-Inertia-Version", v)]
    | none => []
  if r.request.is_xhr then
    some { status := 200, headers := headers ++ [("X-Inertia", "true")],
           body := .json r.page.toJson }
  else
    match r.config.renderTemplate r.page.toJson with
    | .ok document => some { status := 200, headers := headers, body := .html document }
    | .error _ => none

/-- Embeds `InertiaConfigBuilder` (config.rs). -/
structure InertiaConfigBuilder where
  environment : Environment
  views_dir : String
  application_layout : String
  vite_manifest_path : String

/-- Embeds `InertiaConfigBuilder::new` with the Loco defaults. -/
def InertiaConfigBuilder.new (environment : Environment) : InertiaConfigBuilder :=
  { environment := environment
    views_dir := "assets/views"
    application_layout := "layout.html"
    vite_manifest_path := "frontend/dist/.vite/manifest.json" }

/-- Embeds `InertiaConfigBuilder::build` (config.rs).  The two external
effects are passed in as parameters: `hashManifest` is the outcome of reading
and sha1-hashing the vite manifest file, `initTera` the outcome of
initializing the tera engine over the views directory (yielding the layout
rendering function).  In Development the version is `None` and the manifest
hash is never consulted; in every other environment the manifest hash becomes
`Some version`. -/
def InertiaConfigBuilder.build (b : InertiaConfigBuilder)
    (hashManifest : Except String String)
    (initTera : Except String (Json → Except String String)) :
    Except String InertiaConfig :=
  match b.environment with
  | .Development =>
      initTera.map (fun tera =>
        { environment := b.environment, version := none, renderTemplate := tera })
  | _ =>
      hashManifest.bind (fun version =>
        initTera.map (fun tera =>
          { environment := b.environment, version := some version,
            renderTemplate := tera }))

/-- A layout renderer used by the concrete examples: always succeeds with a
fixed document. -/
def layoutW : Json → Except String String := fun _ => .ok "<html/>"

/-- A concrete production configuration whose version is "abc". -/
def cfgAbc : InertiaConfig :=
  { environment := Environment.Production, version := some "abc",
    renderTemplate := layoutW }

/-- A concrete development configuration with no version. -/
def cfgDev : InertiaConfig :=
  { environment := Environment.Development, version := none,
    renderTemplate := layoutW }

/-- A concrete stale GET Inertia request to /test?q=1 carrying version xyz. -/
def partsStale : Parts :=
  { method := "GET", uri := { path := "/test", query := some "q=1" },
    headers := [("X-Inertia", "true"), ("X-Inertia-Version", "xyz")] }

/-- A concrete POST request carrying the same stale Inertia headers. -/
def partsPost : Parts :=
  { method := "POST", uri := { path := "/test", query := none },
    headers := [("X-Inertia", "true"), ("X-Inertia-Version", "xyz")] }

/-- A concrete GET Inertia request carrying a version header, used with the
development configuration. -/
def partsGetDev : Parts :=
  { method := "GET", uri := { path := "/test", query := none },
    headers := [("X-Inertia", "true"), ("X-Inertia-Version", "xyz")] }

/-- A concrete non-Inertia request context that nevertheless carries a
partial-reload directive. -/
def requestNonXhr : Request :=
  { is_xhr := false, version := none, url := "/test",
    partialDir := some { target_component := "Home", only := some ["a"],
                         except := none } }

/-- A concrete Inertia request context. -/
def requestXhr : Request :=
  { is_xhr := true, version := some "xyz", url := "/test?q=1",
    partialDir := none }

/-- A concrete page. -/
def pageW : Page :=
  { component := "Home", props := Json.obj [("a", Json.num 1)],
    url := "/test", version := some "abc" }

/-- A concrete response for a non-Inertia request. -/
def respNonXhr : Response :=
  { request := requestNonXhr, page := pageW, config := cfgAbc }

/-- A concrete response for an Inertia request. -/
def respXhr : Response :=
  { request := requestXhr, page := pageW, config := cfgAbc }

/-- A props provider whose single value thunk fails to serialize. -/
def failingProps : PropsProvider :=
  { entries := [("bad", .error "serialization failure")] }

/-- A props provider whose entries all serialize. -/
def okProps : PropsProvider :=
  { entries := [("a", .ok (Json.num 1))] }

/-- The response rendered for partsGetDev under the development
configuration. -/
def respDev8 : Response :=
  { request := classify partsGetDev.headers partsGetDev.uri.pathAndQuery
    page := { component := "Home", props := Json.obj [("a", Json.num 1)],
              url := "/test", version := none }
    config := cfgDev }

end InertiaLoco

namespace InertiaLoco

/-- Looking a key up in the `only`-restricted mapping gives the same answer as
in the full mapping when the key occurs in the restriction list, and `none`
otherwise. -/
theorem lookupProp_restrict {α : Type} (full : List (String × α))
    (ks : List String) (k : String) :
    lookupProp (ks.filterMap (fun k => (lookupProp full k).map (fun v => (k, v)))) k
      = if ks.contains k then lookupProp full k else none := by
  induction ks with
  | nil => simp [lookupProp]
  | cons k' ks ih =>
    by_cases hk : k' = k
    · subst hk
      cases hfull : lookupProp full k' with
      | none =>
        simp only [List.filterMap_cons, hfull, Option.map_none']
        rw [ih]
        simp only [List.contains_cons]
        by_cases hmem : ks.contains k'
        · simp [hmem, hfull]
        · simp [hmem, hfull]
      | some v =>
        simp only [List.filterMap_cons, hfull, Option.map_some']
        simp [lookupProp, List.find?, List.contains_cons]
    · have hk2 : ¬ k = k' := fun h => hk h.symm
      cases hfull : lookupProp full k' with
      | none =>
        simp only [List.filterMap_cons, hfull, Option.map_none']
        rw [ih]
        simp [hk2]
      | some v =>
        simp only [List.filterMap_cons, hfull, Option.map_some']
        have hfind : lookupProp ((k', v) ::
            ks.filterMap (fun k => (lookupProp full k).map (fun v => (k, v)))) k
            = lookupProp (ks.filterMap (fun k => (lookupProp full k).map (fun v => (k, v)))) k := by
          simp [lookupProp, List.find?, hk]
        rw [hfind, ih]
        simp [hk2]

/-- Restricting a mapping to a key list and then restricting the result to the
same key list changes nothing. -/
theorem restrict_restrict {α : Type} (full : List (String × α)) (ks : List String) :
    ks.filterMap (fun k =>
        (lookupProp (ks.filterMap (fun k => (lookupProp full k).map (fun v => (k, v)))) k).map
          (fun v => (k, v)))
      = ks.filterMap (fun k => (lookupProp full k).map (fun v => (k, v))) := by
  apply List.filterMap_congr
  intro k hk
  rw [lookupProp_restrict]
  simp [hk]

/-- C5: the partial filter with a present-but-empty `only` set (the directive
targeting the component being rendered) yields the empty mapping; with both
`only` and `except` absent, or with no directive at all, it yields the input
mapping unchanged. -/
theorem c5_filter_empty_only_and_absent (props : List (String × Json))
    (d : PartialDirective) (comp : String) :
    (d.target_component = comp → d.only = some [] →
      filterProps props (some d) comp = [])
    ∧ (d.only = none → d.except = none →
      filterProps props (some d) comp = props)
    ∧ filterProps props none comp = props := by
  refine ⟨?_, ?_, rfl⟩
  · intro htc honly
    simp [filterProps, htc, honly]
  · intro honly hexcept
    by_cases htc : d.target_component = comp <;>
      simp [filterProps, htc, honly, hexcept]

/-- C5 witness: concrete evaluations of both halves of the claim. -/
theorem c5_filter_empty_only_and_absent_witness :
    filterProps [("a", Json.num 1)]
        (some { target_component := "Home", only := some [], except := none }) "Home" = []
    ∧ filterProps [("a", Json.num 1)]
        (some { target_component := "Home", only := none, except := none }) "Home"
      = [("a", Json.num 1)] :=
  ⟨(c5_filter_empty_only_and_absent [("a", Json.num 1)]
      { target_component := "Home", only := some [], except := none } "Home").1 rfl rfl,
   (c5_filter_empty_only_and_absent [("a", Json.num 1)]
      { target_component := "Home", only := none, except := none } "Home").2.1 rfl rfl⟩

/-- C6: a directive whose target component differs from the component being
rendered leaves the property mapping unchanged, whatever its `only` and
`except` fields say. -/
theorem c6_filter_cross_component (props : List (String × Json))
    (d : PartialDirective) (comp : String)
    (h : d.target_component ≠ comp) :
    filterProps props (some d) comp = props := by
  simp [filterProps, h]

/-- C6 witness: an `only` list is ignored when the directive targets another
component. -/
theorem c6_filter_cross_component_witness :
    filterProps [("a", Json.num 1), ("b", Json.num 2)]
        (some { target_component := "Other", only := some ["a"], except := none }) "Home"
      = [("a", Json.num 1), ("b", Json.num 2)] :=
  c6_filter_cross_component [("a", Json.num 1), ("b", Json.num 2)]
    { target_component := "Other", only := some ["a"], except := none } "Home"
    (by decide)

/-- C7: the partial filter is idempotent: filtering its own output with the
same directive and component equals filtering once. -/
theorem c7_filter_idempotent {α : Type} (props : List (String × α))
    (directive : Option PartialDirective) (comp : String) :
    filterProps (filterProps props directive comp) directive comp
      = filterProps props directive comp := by
  cases directive with
  | none => rfl
  | some d =>
    by_cases htc : d.target_component = comp
    · cases honly : d.only with
      | some ks =>
        have h1 : filterProps props (some d) comp
            = ks.filterMap (fun k => (lookupProp props k).map (fun v => (k, v))) := by
          simp [filterProps, htc, honly]
        have h2 : filterProps
              (ks.filterMap (fun k => (lookupProp props k).map (fun v => (k, v))))
              (some d) comp
            = ks.filterMap (fun k =>
                (lookupProp (ks.filterMap (fun k => (lookupProp props k).map (fun v => (k, v)))) k).map
                  (fun v => (k, v))) := by
          simp [filterProps, htc, honly]
        rw [h1, h2, restrict_restrict]
      | none =>
        cases hexcept : d.except with
        | some es =>
          have h1 : filterProps props (some d) comp
              = props.filter (fun p => ¬ es.contains p.1) := by
            simp [filterProps, htc, honly, hexcept]
          have h2 : filterProps (props.filter (fun p => ¬ es.contains p.1)) (some d) comp
              = (props.filter (fun p => ¬ es.contains p.1)).filter
                  (fun p => ¬ es.contains p.1) := by
            simp [filterProps, htc, honly, hexcept]
          rw [h1, h2, List.filter_eq_self.mpr]
          intro p hp
          exact (List.mem_filter.mp hp).2
        | none =>
          have h1 : filterProps props (some d) comp = props := by
            simp [filterProps, htc, honly, hexcept]
          rw [h1, h1]
    · have h1 : filterProps props (some d) comp = props := by
        simp [filterProps, htc]
      rw [h1, h1]

/-- C1: the extractor rejects with a 409 Conflict whose headers are exactly
the X-Inertia-Location header set to the request path — the handler body
never executes on a rejection — if and only if the config extension is
present, the method is GET, the classified request is an Inertia request, the
configured version is Some, and the request's version differs from it (which
covers an absent version header); in particular a non-GET request is never
rejected with a 409, whatever its headers. -/
theorem c1_version_conflict_iff (ext : Option InertiaConfig) (parts : Parts) :
    (fromRequestParts ext parts
        = .error (409, [("X-Inertia-Location", parts.uri.path)])
      ↔ ∃ cfg, ext = some cfg
          ∧ parts.method = "GET"
          ∧ (classify parts.headers parts.uri.pathAndQuery).is_xhr = true
          ∧ cfg.version.isSome = true
          ∧ (classify parts.headers parts.uri.pathAndQuery).version ≠ cfg.version)
    ∧ (parts.method ≠ "GET" →
        ∀ hs, fromRequestParts ext parts ≠ .error (409, hs)) := by
  cases ext with
  | none =>
    refine ⟨⟨fun h => ?_, fun h => ?_⟩, fun _ hs h => ?_⟩
    · simp [fromRequestParts] at h
    · obtain ⟨cfg, hcfg, -⟩ := h
      exact Option.noConfusion hcfg
    · simp [fromRequestParts] at h
  | some cfg =>
    by_cases hcond : parts.method = "GET"
        ∧ (classify parts.headers parts.uri.pathAndQuery).is_xhr = true
        ∧ cfg.version.isSome = true
        ∧ (classify parts.headers parts.uri.pathAndQuery).version ≠ cfg.version
    · have hres : fromRequestParts (some cfg) parts
          = .error (409, [("X-Inertia-Location", parts.uri.path)]) := by
        simp only [fromRequestParts]
        rw [if_pos hcond]
      exact ⟨⟨fun _ => ⟨cfg, rfl, hcond⟩, fun _ => hres⟩,
             fun hm _ _ => absurd hcond.1 hm⟩
    · have hres : fromRequestParts (some cfg) parts
          = .ok { request := classify parts.headers parts.uri.pathAndQuery,
                  config := cfg } := by
        simp only [fromRequestParts]
        rw [if_neg hcond]
      refine ⟨⟨fun h => ?_, fun h => ?_⟩, fun _ hs h => ?_⟩
      · rw [hres] at h
        exact Except.noConfusion h
      · obtain ⟨cfg', hcc, hrest⟩ := h
        obtain rfl : cfg = cfg' := Option.some.inj hcc
        exact absurd hrest hcond
      · rw [hres] at h
        exact Except.noConfusion h

/-- C1 witness: a concrete stale-version GET Inertia request is rejected with
the 409 and its location header, and a concrete POST request with the same
stale headers is not rejected with a 409. -/
theorem c1_version_conflict_iff_witness :
    fromRequestParts (some cfgAbc) partsStale
        = .error (409, [("X-Inertia-Location", partsStale.uri.path)])
    ∧ fromRequestParts (some cfgAbc) partsPost ≠ .error (409, []) :=
  ⟨(c1_version_conflict_iff (some cfgAbc) partsStale).1.mpr
      ⟨cfgAbc, rfl, rfl, rfl, rfl, by decide⟩,
   (c1_version_conflict_iff (some cfgAbc) partsPost).2 (by decide) []⟩

/-- C2: a response for a non-Inertia request (is_xhr false) always converts
into the full HTML document produced by the layout renderer over the
serialized page — never into the JSON branch — regardless of any partial
directive carried by the request. -/
theorem c2_non_inertia_full_document (r : Response)
    (h : r.request.is_xhr = false) :
    r.intoResponse
      = (r.config.renderTemplate r.page.toJson).toOption.map
          (fun document =>
            { status := 200
              headers := match r.config.version with
                | some v => [("X-Inertia-Version", v)]
                | none => []
              body := .html document }) := by
  simp only [Response.intoResponse, h]
  cases r.config.renderTemplate r.page.toJson <;> simp [Except.toOption]

/-- C2 witness: a concrete non-Inertia request that carries a partial
directive still gets the rendered full document. -/
theorem c2_non_inertia_full_document_witness :
    respNonXhr.intoResponse
      = some { status := 200, headers := [("X-Inertia-Version", "abc")],
               body := .html "<html/>" } := by
  rw [c2_non_inertia_full_document respNonXhr rfl]
  rfl

/-- C3: a response for an Inertia request (is_xhr true) converts into a wire
response that carries the header X-Inertia: true, carries X-Inertia-Version v
exactly when the configured version is v, and whose body is the page
serialized as JSON with fields component, props, url and version (null when
no version is known). -/
theorem c3_inertia_json_envelope (r : Response) (h : r.request.is_xhr = true) :
    ∃ w, r.intoResponse = some w
      ∧ ("X-Inertia", "true") ∈ w.headers
      ∧ (∀ v, ("X-Inertia-Version", v) ∈ w.headers ↔ r.config.version = some v)
      ∧ w.body = .json (Json.obj
          [("component", .str r.page.component),
           ("props", r.page.props),
           ("url", .str r.page.url),
           ("version",
             match r.page.version with | some v => .str v | none => .null)]) := by
  refine ⟨{ status := 200,
            headers := (match r.config.version with
              | some v => [("X-Inertia-Version", v)]
              | none => []) ++ [("X-Inertia", "true")],
            body := .json r.page.toJson }, ?_, ?_, ?_, rfl⟩
  · simp only [Response.intoResponse, h]
    rfl
  · cases r.config.version <;> simp
  · intro v
    cases hv : r.config.version with
    | none => simp
    | some v0 => simp [eq_comm]

/-- C3 witness: the envelope of a concrete Inertia response, with the
theorem's conclusion instantiated at it. -/
theorem c3_inertia_json_envelope_witness :
    ∃ w, respXhr.intoResponse = some w
      ∧ ("X-Inertia", "true") ∈ w.headers
      ∧ (∀ v, ("X-Inertia-Version", v) ∈ w.headers ↔ cfgAbc.version = some v)
      ∧ w.body = .json (Json.obj
          [("component", .str "Home"),
           ("props", Json.obj [("a", Json.num 1)]),
           ("url", .str "/test"),
           ("version", .str "abc")]) :=
  c3_inertia_json_envelope respXhr rfl

/-- C4: at a props provider one of whose value thunks fails to serialize,
`Inertia.render` panics — modelled by `none` — as the source unwraps the
serialization result with `.expect("serialization failure")`: no `Response`,
and a fortiori no 5xx wire response, is produced by this layer. -/
theorem c4_render_panics_on_serialization_failure :
    Inertia.render { request := requestXhr, config := cfgAbc } "Home" failingProps
      = none := rfl

/-- C8: with a configuration whose version is None, a GET request is never
rejected with a version conflict whatever its version header — extraction
succeeds with the classified request — and any page rendered from the
extracted state has version None, serialized into the envelope as a null
version field. -/
theorem c8_no_version_no_conflict (cfg : InertiaConfig) (parts : Parts)
    (hv : cfg.version = none) (_hm : parts.method = "GET") :
    fromRequestParts (some cfg) parts
        = .ok { request := classify parts.headers parts.uri.pathAndQuery,
                config := cfg }
      ∧ ∀ comp props resp,
          Inertia.render
              { request := classify parts.headers parts.uri.pathAndQuery,
                config := cfg } comp props = some resp →
            resp.page.version = none
            ∧ resp.page.toJson.field "version" = some Json.null := by
  constructor
  · simp [fromRequestParts, hv]
  · intro comp props resp h
    unfold Inertia.render at h
    cases hs : props.serialize
        (classify parts.headers parts.uri.pathAndQuery).partialDir comp with
    | error e =>
      rw [hs] at h
      exact Option.noConfusion h
    | ok value =>
      rw [hs] at h
      obtain rfl := (Option.some.inj h).symm
      constructor
      · exact hv
      · simp [Page.toJson, Json.field, lookupProp, List.find?, hv]

/-- C8 witness: under the development configuration a GET request carrying a
version header is extracted normally and the rendered page's version is null
in the envelope. -/
theorem c8_no_version_no_conflict_witness :
    fromRequestParts (some cfgDev) partsGetDev
        = .ok { request := classify partsGetDev.headers partsGetDev.uri.pathAndQuery,
                config := cfgDev }
    ∧ (respDev8.page.version = none
        ∧ respDev8.page.toJson.field "version" = some Json.null) :=
  ⟨(c8_no_version_no_conflict cfgDev partsGetDev rfl rfl).1,
   (c8_no_version_no_conflict cfgDev partsGetDev rfl rfl).2 "Home" okProps respDev8 rfl⟩

/-- C9: on a version conflict for a request whose URI carries a query string,
the X-Inertia-Location header value is the URI path alone, while the
classified request url — the one a page would echo — includes the query and
therefore differs from the header value. -/
theorem c9_conflict_location_drops_query (cfg : InertiaConfig) (parts : Parts)
    (q : String) (hq : parts.uri.query = some q)
    (hc : parts.method = "GET"
      ∧ (classify parts.headers parts.uri.pathAndQuery).is_xhr = true
      ∧ cfg.version.isSome = true
      ∧ (classify parts.headers parts.uri.pathAndQuery).version ≠ cfg.version) :
    fromRequestParts (some cfg) parts
        = .error (409, [("X-Inertia-Location", parts.uri.path)])
    ∧ (classify parts.headers parts.uri.pathAndQuery).url
        = parts.uri.path ++ "?" ++ q
    ∧ parts.uri.path ≠ parts.uri.path ++ "?" ++ q := by
  refine ⟨?_, ?_, ?_⟩
  · simp only [fromRequestParts]
    rw [if_pos hc]
  · simp [classify, Uri.pathAndQuery, hq]
  · intro h
    have hlen := congrArg String.length h
    rw [String.length_append, String.length_append] at hlen
    have hone : ("?" : String).length = 1 := rfl
    rw [hone] at hlen
    omega

/-- C9 witness: the concrete stale request to /test?q=1 is rejected with the
location header /test, its query excluded, while the classified url keeps the
query. -/
theorem c9_conflict_location_drops_query_witness :
    fromRequestParts (some cfgAbc) partsStale
        = .error (409, [("X-Inertia-Location", partsStale.uri.path)])
    ∧ (classify partsStale.headers partsStale.uri.pathAndQuery).url
        = partsStale.uri.path ++ "?" ++ "q=1"
    ∧ partsStale.uri.path ≠ partsStale.uri.path ++ "?" ++ "q=1" :=
  c9_conflict_location_drops_query cfgAbc partsStale "q=1" rfl
    ⟨rfl, rfl, rfl, by decide⟩

/-- C10: a configuration built in the Development environment has version
None — the manifest hash is never consulted, so building with any other hash
outcome gives the same result — and consequently no request is ever rejected
by the extractor with a 409 version conflict under such a configuration. -/
theorem c10_development_never_conflicts (b : InertiaConfigBuilder)
    (hashManifest : Except String String)
    (initTera : Except String (Json → Except String String))
    (cfg : InertiaConfig)
    (henv : b.environment = Environment.Development)
    (hb : b.build hashManifest initTera = .ok cfg) :
    cfg.version = none
    ∧ (∀ hashManifest',
        b.build hashManifest' initTera = b.build hashManifest initTera)
    ∧ ∀ parts hs, fromRequestParts (some cfg) parts ≠ .error (409, hs) := by
  obtain ⟨env, vd, al, vm⟩ := b
  obtain rfl : env = Environment.Development := henv
  simp only [InertiaConfigBuilder.build] at hb
  cases hit : initTera with
  | error e =>
    rw [hit] at hb
    exact absurd hb (by simp [Except.map])
  | ok tera =>
    rw [hit] at hb
    simp only [Except.map] at hb
    obtain rfl := (Except.ok.inj hb).symm
    refine ⟨rfl, fun hashManifest' => rfl, ?_⟩
    intro parts hs h
    simp [fromRequestParts] at h

/-- C10 witness: the default development builder yields the development
configuration, ignores the manifest hash, and a concrete request under it is
not rejected with a 409. -/
theorem c10_development_never_conflicts_witness :
    cfgDev.version = none
    ∧ (InertiaConfigBuilder.new Environment.Development).build
          (Except.ok "other") (Except.ok layoutW)
        = (InertiaConfigBuilder.new Environment.Development).build
            (Except.ok "h") (Except.ok layoutW)
    ∧ fromRequestParts (some cfgDev) partsGetDev ≠ .error (409, []) :=
  ⟨(c10_development_never_conflicts (InertiaConfigBuilder.new Environment.Development)
      (Except.ok "h") (Except.ok layoutW) cfgDev rfl rfl).1,
   (c10_development_never_conflicts (InertiaConfigBuilder.new Environment.Development)
      (Except.ok "h") (Except.ok layoutW) cfgDev rfl rfl).2.1 (Except.ok "other"),
   (c10_development_never_conflicts (InertiaConfigBuilder.new Environment.Development)
      (Except.ok "h") (Except.ok layoutW) cfgDev rfl rfl).2.2 partsGetDev []⟩

end InertiaLoco
